import Mathlib

/-!
Verification development for the OpenLANE summary CLI (`summary.py`, `report.py`).

The Python sources are shallowly embedded: pure fragments become Lean
functions on `List Char` / `String`; an uncaught Python exception is
modelled as `Option.none`; `exit(msg)` is modelled as `Except.error msg`;
everything printed is collected into `List String`.

Numeric modelling notes, stated once here:
* `datetime.timestamp()` interprets a naive datetime in the local timezone;
  the embedding fixes UTC.  Every property proved below is insensitive to a
  fixed offset (the margins involved exceed two billion seconds, far larger
  than any UTC offset or DST shift).
* Python floats are modelled as exact decimals (`Dec`).  The values that
  reach `float()` here are short decimal literals from reports; for those,
  comparisons such as `v > r * 2` agree between binary doubles and exact
  decimal arithmetic (doubling a double is exact and the decimal grids used
  have gaps many orders of magnitude above one ulp).
-/

namespace OLSum

/-- Characters matched by Python's regex class `\s` (ASCII range). -/
def isPySpace (c : Char) : Bool :=
  c = ' ' || c = '\t' || c = '\n' || c = '\r' || c = '\x0b' || c = '\x0c'

/-- Python substring test `needle in hay` on character lists. -/
def containsSub (n : List Char) : List Char → Bool
  | [] => n.isEmpty
  | c :: rest => n.isPrefixOf (c :: rest) || containsSub n rest

/-- Substring test on strings (`needle in hay` in Python). -/
def pySub (needle hay : String) : Bool :=
  containsSub needle.data hay.data

/-- Python `str.strip()`: remove leading and trailing whitespace. -/
def pyStrip (s : String) : String :=
  String.mk (((s.data.dropWhile isPySpace).reverse.dropWhile isPySpace).reverse)

/-- Right-justification used by the `%30s` / `%20s` format specifiers. -/
def padLeftStr (w : Nat) (s : String) : String :=
  String.mk (List.replicate (w - s.length) ' ') ++ s

/-- Value of a list of decimal digit characters. -/
def natOfDigits (ds : List Char) : Nat :=
  ds.foldl (fun a c => 10 * a + (c.toNat - 48)) 0

/-- Python `int(s)` restricted to an optional sign followed by digits
(the CSV fields fed to `int` in this program have that shape). -/
def parsePyIntChars : List Char → Option Int
  | [] => none
  | '-' :: ds =>
    if ds ≠ [] ∧ ds.all Char.isDigit then some (-(natOfDigits ds : Int)) else none
  | '+' :: ds =>
    if ds ≠ [] ∧ ds.all Char.isDigit then some ((natOfDigits ds : Int)) else none
  | ds =>
    if ds.all Char.isDigit then some ((natOfDigits ds : Int)) else none

/-- Python `int(s)` on a string. -/
def parsePyInt (s : String) : Option Int :=
  parsePyIntChars s.data

/-- An exact decimal `num / 10 ^ scale`, the embedding of the Python floats
appearing in this program (all parsed from decimal literals). -/
structure Dec where
  num : Int
  scale : Nat
deriving DecidableEq, Repr

/-- Unsigned decimal literal: digits, optionally followed by a dot and more
digits; at least one digit overall. -/
def parseDecCore (ds : List Char) : Option Dec :=
  let ip := ds.takeWhile Char.isDigit
  let r := ds.dropWhile Char.isDigit
  match r with
  | [] => if ip = [] then none else some ⟨(natOfDigits ip : Int), 0⟩
  | '.' :: fp =>
    if fp.all Char.isDigit ∧ (ip ≠ [] ∨ fp ≠ []) then
      some ⟨(natOfDigits ip * 10 ^ fp.length + natOfDigits fp : Int), fp.length⟩
    else none
  | _ => none

/-- Python `float(s)` restricted to plain signed decimal literals. -/
def parseDecChars : List Char → Option Dec
  | '-' :: ds => (parseDecCore ds).map (fun d => ⟨-d.num, d.scale⟩)
  | '+' :: ds => parseDecCore ds
  | ds => parseDecCore ds

/-- Python `float(s)` on a string. -/
def parsePyFloat (s : String) : Option Dec :=
  parseDecChars s.data

/-- Rational value of a `Dec`. -/
def Dec.toRat (d : Dec) : ℚ :=
  (d.num : ℚ) / (10 : ℚ) ^ d.scale

/-- Truncation toward zero, as Python's `%d` applied to a float. -/
def Dec.truncInt (d : Dec) : Int :=
  Int.tdiv d.num ((10 : Int) ^ d.scale)

/-- The comparison `float(v) > float(r) * 2` on exact decimals
(cross-multiplied, so it stays in integer arithmetic). -/
def decGtTwice (v r : Dec) : Bool :=
  r.num * 2 * (10 : Int) ^ v.scale < v.num * (10 : Int) ^ r.scale

/-! ## Regex engine for the two fixed run-name patterns

`openlane_date_sort` matches a basename against
`^RUN_\d+.\d+.\d+\_\d+\.\d+\.\d+$` and `^\d+\-\d+\_\d+\-\d+$` before
handing it to `strptime`.  The patterns are sequences of literal
characters, `.` wildcards and `\d+` groups, matched here with full
backtracking.  A final `$` in Python also matches just before one trailing
newline, hence the base case below. -/

inductive Tok
  | lit (c : Char)
  | anyc
  | digits
deriving DecidableEq

/-- Backtracking matcher for a token sequence against a whole string
(anchored on both sides, `$` allowing one trailing newline). -/
def matchesAux : List Tok → List Char → Bool
  | [], rest => rest.isEmpty || rest = ['\n']
  | Tok.lit _ :: _, [] => false
  | Tok.anyc :: _, [] => false
  | Tok.digits :: _, [] => false
  | Tok.lit c :: ts, x :: xs => x = c && matchesAux ts xs
  | Tok.anyc :: ts, x :: xs => x ≠ '\n' && matchesAux ts xs
  | Tok.digits :: ts, x :: xs =>
    x.isDigit && (matchesAux ts xs || matchesAux (Tok.digits :: ts) xs)

/-- Tokens of `\d+.\d+.\d+\_\d+\.\d+\.\d+` (after the `RUN_` prefix;
note the first two separators are unescaped dots, i.e. wildcards). -/
def runToksTail : List Tok :=
  [Tok.digits, Tok.anyc, Tok.digits, Tok.anyc, Tok.digits, Tok.lit '_',
   Tok.digits, Tok.lit '.', Tok.digits, Tok.lit '.', Tok.digits]

/-- Tokens of `^RUN_\d+.\d+.\d+\_\d+\.\d+\.\d+$`. -/
def runToks : List Tok :=
  Tok.lit 'R' :: Tok.lit 'U' :: Tok.lit 'N' :: Tok.lit '_' :: runToksTail

/-- Tokens of `^\d+\-\d+\_\d+\-\d+$`. -/
def dmToks : List Tok :=
  [Tok.digits, Tok.lit '-', Tok.digits, Tok.lit '_', Tok.digits, Tok.lit '-',
   Tok.digits]

def matchesRunRegex (cs : List Char) : Bool := matchesAux runToks cs

def matchesDMRegex (cs : List Char) : Bool := matchesAux dmToks cs

/-! ## Calendar arithmetic (`datetime.strptime(...).timestamp()`) -/

/-- Gregorian leap year, as `datetime`'s calendar. -/
def isLeap (y : Nat) : Bool :=
  y % 4 = 0 && (y % 100 ≠ 0 || y % 400 = 0)

/-- Days in the months preceding month `mo` (1-based). -/
def daysBeforeMonth (leap : Bool) (mo : Nat) : Nat :=
  (match mo with
   | 1 => 0
   | 2 => 31
   | 3 => 59
   | 4 => 90
   | 5 => 120
   | 6 => 151
   | 7 => 181
   | 8 => 212
   | 9 => 243
   | 10 => 273
   | 11 => 304
   | _ => 334) + (if leap ∧ 3 ≤ mo then 1 else 0)

/-- Length of month `mo` of year `y` (`datetime` validation). -/
def daysInMonth (y mo : Nat) : Nat :=
  match mo with
  | 2 => if isLeap y then 29 else 28
  | 4 => 30
  | 6 => 30
  | 9 => 30
  | 11 => 30
  | _ => 31

/-- `datetime.date(y, mo, d).toordinal()`: day count with 0001-01-01 = 1. -/
def toOrdinal (y mo d : Nat) : Int :=
  let py := y - 1
  365 * (py : Int) + ((py / 4 : Nat) : Int) - ((py / 100 : Nat) : Int)
    + ((py / 400 : Nat) : Int) + ((daysBeforeMonth (isLeap y) mo : Nat) : Int)
    + (d : Int)

/-- `datetime(y, mo, d, h, mi, s).timestamp()` with the timezone fixed to
UTC; 719163 is the ordinal of 1970-01-01. -/
def timestampOf (y mo d h mi s : Nat) : Int :=
  86400 * (toOrdinal y mo d - 719163) + ((3600 * h + 60 * mi + s : Nat) : Int)

/-- One numeric `strptime` field: a maximal digit run of length at most
`maxLen` whose value lies in `lo..hi`.  This is exactly when the field's
regex alternation (`3[01]|[12]\d|0[1-9]|[1-9]` and friends) consumes the
whole run. -/
def takeField (maxLen lo hi : Nat) (cs : List Char) : Option (Nat × List Char) :=
  let ds := cs.takeWhile Char.isDigit
  let rest := cs.dropWhile Char.isDigit
  if ds = [] ∨ maxLen < ds.length then none
  else
    let v := natOfDigits ds
    if lo ≤ v ∧ v ≤ hi then some (v, rest) else none

/-- The `%Y` field: exactly four digits. -/
def takeYear (cs : List Char) : Option (Nat × List Char) :=
  let ds := cs.takeWhile Char.isDigit
  let rest := cs.dropWhile Char.isDigit
  if ds.length = 4 then some (natOfDigits ds, rest) else none

/-- Consume one expected literal character. -/
def expectChar (c : Char) : List Char → Option (List Char)
  | x :: xs => if x = c then some xs else none
  | [] => none

/-- `datetime.strptime(cs, "%Y.%m.%d_%H.%M.%S").timestamp()`:
`some` is the float result, `none` an uncaught `ValueError`.
Field ranges follow CPython's `_strptime` regexes; the final condition is
the `datetime` constructor validation. -/
def strptimeRunKey (cs : List Char) : Option Int :=
  (takeYear cs).bind (fun yr =>
  (expectChar '.' yr.2).bind (fun r2 =>
  (takeField 2 1 12 r2).bind (fun mor =>
  (expectChar '.' mor.2).bind (fun r4 =>
  (takeField 2 1 31 r4).bind (fun dr =>
  (expectChar '_' dr.2).bind (fun r6 =>
  (takeField 2 0 23 r6).bind (fun hr =>
  (expectChar '.' hr.2).bind (fun r8 =>
  (takeField 2 0 59 r8).bind (fun mir =>
  (expectChar '.' mir.2).bind (fun r10 =>
  (takeField 2 0 61 r10).bind (fun sr =>
    if sr.2 = [] ∧ 1 ≤ yr.1 ∧ dr.1 ≤ daysInMonth yr.1 mor.1 ∧ sr.1 ≤ 59 then
      some (timestampOf yr.1 mor.1 dr.1 hr.1 mir.1 sr.1)
    else none)))))))))))

/-- `datetime.strptime(cs, "%d-%m_%H-%M").timestamp()` (year defaults to
1900, seconds to 0). -/
def strptimeDMKey (cs : List Char) : Option Int :=
  (takeField 2 1 31 cs).bind (fun dr =>
  (expectChar '-' dr.2).bind (fun r2 =>
  (takeField 2 1 12 r2).bind (fun mor =>
  (expectChar '_' mor.2).bind (fun r4 =>
  (takeField 2 0 23 r4).bind (fun hr =>
  (expectChar '-' hr.2).bind (fun r6 =>
  (takeField 2 0 59 r6).bind (fun mir =>
    if mir.2 = [] ∧ dr.1 ≤ daysInMonth 1900 mor.1 then
      some (timestampOf 1900 mor.1 dr.1 hr.1 mir.1 0)
    else none)))))))

/-- `os.path.basename`: the part after the last slash. -/
def basenameChars (cs : List Char) : List Char :=
  (cs.reverse.takeWhile (fun c => c ≠ '/')).reverse

/-- `datestamp.replace("RUN_", "")`: remove every non-overlapping
occurrence of `RUN_`, scanning left to right. -/
def replaceRUN : List Char → List Char
  | 'R' :: 'U' :: 'N' :: '_' :: rest => replaceRUN rest
  | c :: rest => c :: replaceRUN rest
  | [] => []

/-- `openlane_date_sort` from `summary.py`: the sort key of a run
directory.  `some k` is the returned key; `none` is an uncaught
`strptime`/`datetime` exception (regex matched, strict parse failed). -/
def openlane_date_sort (e : String) : Option Int :=
  let datestamp := basenameChars e.data
  if matchesRunRegex datestamp then strptimeRunKey (replaceRUN datestamp)
  else if matchesDMRegex datestamp then strptimeDMKey datestamp
  else some (-1)

/-- Strip a literal `RUN_` prefix, if present. -/
def stripRUNpre : List Char → Option (List Char)
  | 'R' :: 'U' :: 'N' :: '_' :: rest => some rest
  | _ => none

/-- The timestamp parsed from a directory name per the specification's
two formats (`RUN_%Y.%m.%d_%H.%M.%S` and `%d-%m_%H-%M`), independent of
the regex prefilter. -/
def parsedTimestampKey (e : String) : Option Int :=
  match stripRUNpre (basenameChars e.data) with
  | some rest => strptimeRunKey rest
  | none => strptimeDMKey (basenameChars e.data)

/-! ## Lemmas about the run-name machinery -/

theorem expectChar_spec {c : Char} {l r : List Char} (h : expectChar c l = some r) :
    l = c :: r := by
  cases l with
  | nil => exact Option.noConfusion h
  | cons x xs =>
    simp only [expectChar] at h
    split_ifs at h with hx
    injection h with h2
    rw [hx, h2]

theorem takeField_spec {maxLen lo hi : Nat} {cs : List Char} {v : Nat}
    {rest : List Char} (h : takeField maxLen lo hi cs = some (v, rest)) :
    ∃ ds, cs = ds ++ rest ∧ ds ≠ [] ∧ (∀ c ∈ ds, c.isDigit = true) ∧
      lo ≤ v ∧ v ≤ hi := by
  simp only [takeField] at h
  split_ifs at h with h1 h2
  · push_neg at h1
    rw [Option.some.injEq, Prod.mk.injEq] at h
    obtain ⟨hv, hr⟩ := h
    refine ⟨cs.takeWhile Char.isDigit, ?_, h1.1, ?_, ?_, ?_⟩
    · rw [← hr]
      exact (List.takeWhile_append_dropWhile Char.isDigit cs).symm
    · exact fun c hc => List.mem_takeWhile_imp hc
    · rw [← hv]; exact h2.1
    · rw [← hv]; exact h2.2

theorem takeYear_spec {cs : List Char} {v : Nat} {rest : List Char}
    (h : takeYear cs = some (v, rest)) :
    ∃ ds, cs = ds ++ rest ∧ ds ≠ [] ∧ (∀ c ∈ ds, c.isDigit = true) := by
  simp only [takeYear] at h
  split_ifs at h with h1
  · rw [Option.some.injEq, Prod.mk.injEq] at h
    obtain ⟨_, hr⟩ := h
    refine ⟨cs.takeWhile Char.isDigit, ?_, ?_, ?_⟩
    · rw [← hr]
      exact (List.takeWhile_append_dropWhile Char.isDigit cs).symm
    · intro hnil
      rw [hnil] at h1
      exact absurd h1 (by decide)
    · exact fun c hc => List.mem_takeWhile_imp hc

theorem digit_not_R {c : Char} (h : c.isDigit = true) : c ≠ 'R' := by
  intro hc
  rw [hc] at h
  exact absurd h (by decide)

theorem matchesAux_lit {ts : List Tok} {rest : List Char} (c : Char)
    (h : matchesAux ts rest = true) :
    matchesAux (Tok.lit c :: ts) (c :: rest) = true := by
  simp [matchesAux, h]

theorem matchesAux_any {ts : List Tok} {rest : List Char} (c : Char)
    (hc : c ≠ '\n') (h : matchesAux ts rest = true) :
    matchesAux (Tok.anyc :: ts) (c :: rest) = true := by
  simp [matchesAux, h, hc]

theorem matchesAux_digits {ts : List Tok} {rest : List Char} (ds : List Char)
    (hne : ds ≠ []) (hdig : ∀ c ∈ ds, c.isDigit = true)
    (h : matchesAux ts rest = true) :
    matchesAux (Tok.digits :: ts) (ds ++ rest) = true := by
  induction ds with
  | nil => exact absurd rfl hne
  | cons c cs ih =>
    cases cs with
    | nil =>
      have hc := hdig c (by simp)
      simp [matchesAux, hc, h]
    | cons c2 cs2 =>
      have hTail := ih (by simp) (fun x hx => hdig x (List.mem_cons_of_mem c hx))
      have hc := hdig c (by simp)
      simp only [List.cons_append] at hTail ⊢
      simp [matchesAux, hc] at hTail ⊢
      exact Or.inr hTail

theorem replaceRUN_id : ∀ cs : List Char, (∀ c ∈ cs, c ≠ 'R') → replaceRUN cs = cs := by
  intro cs
  induction cs with
  | nil => intro _; rfl
  | cons c rest ih =>
    intro h
    rw [replaceRUN.eq_def]
    split
    · rename_i heq
      injection heq with h1 _
      exact absurd h1 (h c (by simp))
    · rename_i xv nc heq
      injection heq with h1 h2
      rw [← h1, ← h2]
      rw [ih (fun x hx => h x (by simp [hx]))]
    · rename_i heq
      exact (List.cons_ne_nil c rest heq).elim

theorem stripRUNpre_spec {l rest : List Char} (h : stripRUNpre l = some rest) :
    l = 'R' :: 'U' :: 'N' :: '_' :: rest := by
  rw [stripRUNpre.eq_def] at h
  split at h
  · injection h with h1
    rw [h1]
  · exact Option.noConfusion h

/-- Decomposition of a successful `%d-%m_%H-%M` parse. -/
theorem strptimeDM_spec {cs : List Char} {k : Int} (h : strptimeDMKey cs = some k) :
    ∃ (g1 g2 g3 g4 : List Char) (d mo hh mi : Nat),
      cs = g1 ++ '-' :: (g2 ++ '_' :: (g3 ++ '-' :: g4)) ∧
      (g1 ≠ [] ∧ ∀ c ∈ g1, c.isDigit = true) ∧
      (g2 ≠ [] ∧ ∀ c ∈ g2, c.isDigit = true) ∧
      (g3 ≠ [] ∧ ∀ c ∈ g3, c.isDigit = true) ∧
      (g4 ≠ [] ∧ ∀ c ∈ g4, c.isDigit = true) ∧
      1 ≤ mo ∧ mo ≤ 12 ∧ 1 ≤ d ∧ d ≤ 31 ∧ hh ≤ 23 ∧ mi ≤ 59 ∧
      k = timestampOf 1900 mo d hh mi 0 := by
  unfold strptimeDMKey at h
  simp only [Option.bind_eq_some] at h
  obtain ⟨⟨d, r1⟩, hd, r2, hc1, ⟨mo, r3⟩, hmo, r4, hc2, ⟨hh, r5⟩, hhh, r6, hc3,
    ⟨mi, r7⟩, hmi, hfin⟩ := h
  by_cases hcond : r7 = [] ∧ d ≤ daysInMonth 1900 mo
  · rw [if_pos hcond] at hfin
    injection hfin with hk
    obtain ⟨g1, hcs1, hg1, hg1d, hd1, hd31⟩ := takeField_spec hd
    have he1 : r1 = '-' :: r2 := expectChar_spec hc1
    obtain ⟨g2, hcs2, hg2, hg2d, hmo1, hmo12⟩ := takeField_spec hmo
    have he2 : r3 = '_' :: r4 := expectChar_spec hc2
    obtain ⟨g3, hcs3, hg3, hg3d, _, hh23⟩ := takeField_spec hhh
    have he3 : r5 = '-' :: r6 := expectChar_spec hc3
    obtain ⟨g4, hcs4, hg4, hg4d, _, hmi59⟩ := takeField_spec hmi
    refine ⟨g1, g2, g3, g4, d, mo, hh, mi, ?_, ⟨hg1, hg1d⟩, ⟨hg2, hg2d⟩,
      ⟨hg3, hg3d⟩, ⟨hg4, hg4d⟩, hmo1, hmo12, hd1, hd31, hh23, hmi59, hk.symm⟩
    rw [hcs1, he1, hcs2, he2, hcs3, he3, hcs4, hcond.1, List.append_nil]
  · rw [if_neg hcond] at hfin
    exact Option.noConfusion hfin

/-- Decomposition of a successful `%Y.%m.%d_%H.%M.%S` parse. -/
theorem strptimeRun_spec {cs : List Char} {k : Int} (h : strptimeRunKey cs = some k) :
    ∃ g1 g2 g3 g4 g5 g6 : List Char,
      cs = g1 ++ '.' :: (g2 ++ '.' :: (g3 ++ '_' :: (g4 ++ '.' :: (g5 ++ '.' :: g6)))) ∧
      (g1 ≠ [] ∧ ∀ c ∈ g1, c.isDigit = true) ∧
      (g2 ≠ [] ∧ ∀ c ∈ g2, c.isDigit = true) ∧
      (g3 ≠ [] ∧ ∀ c ∈ g3, c.isDigit = true) ∧
      (g4 ≠ [] ∧ ∀ c ∈ g4, c.isDigit = true) ∧
      (g5 ≠ [] ∧ ∀ c ∈ g5, c.isDigit = true) ∧
      (g6 ≠ [] ∧ ∀ c ∈ g6, c.isDigit = true) := by
  unfold strptimeRunKey at h
  simp only [Option.bind_eq_some] at h
  obtain ⟨⟨y, r1⟩, hy, r2, hc1, ⟨mo, r3⟩, hmo, r4, hc2, ⟨d, r5⟩, hd, r6, hc3,
    ⟨hh, r7⟩, hhh, r8, hc4, ⟨mi, r9⟩, hmi, r10, hc5, ⟨s, r11⟩, hs, hfin⟩ := h
  by_cases hcond : r11 = [] ∧ 1 ≤ y ∧ d ≤ daysInMonth y mo ∧ s ≤ 59
  · obtain ⟨g1, hcs1, hg1, hg1d⟩ := takeYear_spec hy
    have he1 : r1 = '.' :: r2 := expectChar_spec hc1
    obtain ⟨g2, hcs2, hg2, hg2d, _, _⟩ := takeField_spec hmo
    have he2 : r3 = '.' :: r4 := expectChar_spec hc2
    obtain ⟨g3, hcs3, hg3, hg3d, _, _⟩ := takeField_spec hd
    have he3 : r5 = '_' :: r6 := expectChar_spec hc3
    obtain ⟨g4, hcs4, hg4, hg4d, _, _⟩ := takeField_spec hhh
    have he4 : r7 = '.' :: r8 := expectChar_spec hc4
    obtain ⟨g5, hcs5, hg5, hg5d, _, _⟩ := takeField_spec hmi
    have he5 : r9 = '.' :: r10 := expectChar_spec hc5
    obtain ⟨g6, hcs6, hg6, hg6d, _, _⟩ := takeField_spec hs
    refine ⟨g1, g2, g3, g4, g5, g6, ?_, ⟨hg1, hg1d⟩, ⟨hg2, hg2d⟩, ⟨hg3, hg3d⟩,
      ⟨hg4, hg4d⟩, ⟨hg5, hg5d⟩, ⟨hg6, hg6d⟩⟩
    rw [hcs1, he1, hcs2, he2, hcs3, he3, hcs4, he4, hcs5, he5, hcs6, hcond.1,
      List.append_nil]
  · rw [if_neg hcond] at hfin
    exact Option.noConfusion hfin

theorem strptimeDM_matches {cs : List Char} {k : Int}
    (h : strptimeDMKey cs = some k) : matchesDMRegex cs = true := by
  obtain ⟨g1, g2, g3, g4, d, mo, hh, mi, hcs, ⟨hg1, hg1d⟩, ⟨hg2, hg2d⟩,
    ⟨hg3, hg3d⟩, ⟨hg4, hg4d⟩, _⟩ := strptimeDM_spec h
  rw [hcs]
  unfold matchesDMRegex dmToks
  have m0 : matchesAux [] [] = true := rfl
  have m1 := matchesAux_digits g4 hg4 hg4d m0
  rw [List.append_nil] at m1
  have m2 := matchesAux_lit '-' m1
  have m3 := matchesAux_digits g3 hg3 hg3d m2
  have m4 := matchesAux_lit '_' m3
  have m5 := matchesAux_digits g2 hg2 hg2d m4
  have m6 := matchesAux_lit '-' m5
  exact matchesAux_digits g1 hg1 hg1d m6

theorem strptimeRun_matchesTail {cs : List Char} {k : Int}
    (h : strptimeRunKey cs = some k) : matchesAux runToksTail cs = true := by
  obtain ⟨g1, g2, g3, g4, g5, g6, hcs, ⟨hg1, hg1d⟩, ⟨hg2, hg2d⟩, ⟨hg3, hg3d⟩,
    ⟨hg4, hg4d⟩, ⟨hg5, hg5d⟩, ⟨hg6, hg6d⟩⟩ := strptimeRun_spec h
  rw [hcs]
  unfold runToksTail
  have m0 : matchesAux [] [] = true := rfl
  have m1 := matchesAux_digits g6 hg6 hg6d m0
  rw [List.append_nil] at m1
  have m2 := matchesAux_lit '.' m1
  have m3 := matchesAux_digits g5 hg5 hg5d m2
  have m4 := matchesAux_lit '.' m3
  have m5 := matchesAux_digits g4 hg4 hg4d m4
  have m6 := matchesAux_lit '_' m5
  have m7 := matchesAux_digits g3 hg3 hg3d m6
  have m8 := matchesAux_any '.' (by decide) m7
  have m9 := matchesAux_digits g2 hg2 hg2d m8
  have m10 := matchesAux_any '.' (by decide) m9
  exact matchesAux_digits g1 hg1 hg1d m10

theorem strptimeRun_noR {cs : List Char} {k : Int}
    (h : strptimeRunKey cs = some k) : replaceRUN cs = cs := by
  obtain ⟨g1, g2, g3, g4, g5, g6, hcs, ⟨_, hg1d⟩, ⟨_, hg2d⟩, ⟨_, hg3d⟩,
    ⟨_, hg4d⟩, ⟨_, hg5d⟩, ⟨_, hg6d⟩⟩ := strptimeRun_spec h
  apply replaceRUN_id
  intro c hc
  rw [hcs] at hc
  simp only [List.mem_append, List.mem_cons] at hc
  rcases hc with h1 | h1 | h1 | h1 | h1 | h1 | h1 | h1 | h1 | h1 | h1
  · exact digit_not_R (hg1d c h1)
  · rw [h1]; decide
  · exact digit_not_R (hg2d c h1)
  · rw [h1]; decide
  · exact digit_not_R (hg3d c h1)
  · rw [h1]; decide
  · exact digit_not_R (hg4d c h1)
  · rw [h1]; decide
  · exact digit_not_R (hg5d c h1)
  · rw [h1]; decide
  · exact digit_not_R (hg6d c h1)

theorem matchesRun_of_tail {cs : List Char} (h : matchesAux runToksTail cs = true) :
    matchesRunRegex ('R' :: 'U' :: 'N' :: '_' :: cs) = true := by
  unfold matchesRunRegex runToks
  simp [matchesAux, h]

theorem matchesRun_false_of_digit {c : Char} {tail : List Char}
    (h : c.isDigit = true) : matchesRunRegex (c :: tail) = false := by
  have hne : c ≠ 'R' := digit_not_R h
  unfold matchesRunRegex runToks
  simp [matchesAux, hne]

theorem strptimeDM_lt {cs : List Char} {k : Int}
    (h : strptimeDMKey cs = some k) : k < -1 := by
  obtain ⟨g1, g2, g3, g4, d, mo, hh, mi, _, _, _, _, _, _, _, _, hd31, hh23,
    hmi59, hk⟩ := strptimeDM_spec h
  have hB : daysBeforeMonth (isLeap 1900) mo ≤ 334 := by
    rw [show isLeap 1900 = false from by decide]
    unfold daysBeforeMonth
    split <;> simp
  rw [hk]
  unfold timestampOf toOrdinal
  norm_num
  omega

/-- C1: sorting run-directory names with `openlane_date_sort` as key sorts by
the timestamp parsed from the name, in the following amended sense: (i) any
name whose basename parses under one of the two formats gets its parsed
timestamp as key, so names ordered by key are ordered by parsed timestamp;
(ii) any name whose basename matches neither regex gets the fixed key `-1`;
(iii) `-1` is however not minimal: every name matching `%d-%m_%H-%M` is
parsed in year 1900 and gets a key below `-1`, so unparseable names sort
after those, not before all parseable ones. -/
theorem C1_date_sort_key :
    (∀ (e : String) (k : Int), parsedTimestampKey e = some k →
      openlane_date_sort e = some k) ∧
    (∀ e : String, matchesRunRegex (basenameChars e.data) = false →
      matchesDMRegex (basenameChars e.data) = false →
      openlane_date_sort e = some (-1)) ∧
    (∀ (cs : List Char) (k : Int), strptimeDMKey cs = some k → k < -1) := by
  refine ⟨?_, ?_, fun cs k h => strptimeDM_lt h⟩
  · intro e k h
    simp only [parsedTimestampKey] at h
    cases hst : stripRUNpre (basenameChars e.data) with
    | some rest =>
      rw [hst] at h
      have hpre := stripRUNpre_spec hst
      have hrep : replaceRUN ('R' :: 'U' :: 'N' :: '_' :: rest) = rest := by
        have h1 : replaceRUN ('R' :: 'U' :: 'N' :: '_' :: rest) = replaceRUN rest := rfl
        rw [h1, strptimeRun_noR h]
      simp only [openlane_date_sort, hpre,
        matchesRun_of_tail (strptimeRun_matchesTail h), if_true, hrep]
      exact h
    | none =>
      rw [hst] at h
      obtain ⟨g1, g2, g3, g4, d, mo, hh, mi, hcs, ⟨hg1, hg1d⟩, _⟩ :=
        strptimeDM_spec h
      have hrunF : matchesRunRegex (basenameChars e.data) = false := by
        cases g1 with
        | nil => exact absurd rfl hg1
        | cons c g1' =>
          rw [hcs]
          simp only [List.cons_append]
          exact matchesRun_false_of_digit (hg1d c (by simp))
      have hdmT := strptimeDM_matches h
      simp only [openlane_date_sort, hrunF, hdmT]
      simp only [Bool.false_eq_true, if_false, if_true]
      exact h
  · intro e h1 h2
    simp [openlane_date_sort, h1, h2]

/-- C1 counterexample: `"01-01_00-00"` matches the `%d-%m_%H-%M` format and
receives key `-2208988800` (year 1900), while the unparseable `"zzz"`
receives `-1`; the unparseable name is therefore not ordered before every
parseable one, contrary to the claim. -/
theorem C1_counterexample :
    openlane_date_sort ("zzz") = some (-1) ∧
    openlane_date_sort ("01-01_00-00") = some (-2208988800) ∧
    ¬ ((-1 : Int) < -2208988800) := by
  refine ⟨by decide, by decide, by decide⟩

/-- C1 witness: the amended theorem evaluated at concrete names. -/
theorem C1_witness :
    openlane_date_sort ("RUN_2022.01.30_10.20.30") = some 1643538030 ∧
    openlane_date_sort ("hello") = some (-1) ∧
    ((-2208988800 : Int) < -1) :=
  ⟨C1_date_sort_key.1 _ 1643538030 (by decide),
   C1_date_sort_key.2.1 _ (by decide) (by decide),
   C1_date_sort_key.2.2 (String.data ("01-01_00-00")) _ (by decide)⟩

/-! ## Antenna report

`antenna_report` matches each line against
`\s+(PAR|CAR):\s+(\d+.\d+)\*\s+Ratio:\s+(\d+.\d+)` (`re.match`, so the
pattern is anchored at the start and the tail of the line is free).  The
numeric captures contain an unescaped-dot wildcard, matched below with the
same backtracking priority as Python's engine: the first `\d+` is as long
as possible, then the wildcard, then a maximal second `\d+`. -/

/-- Maximal digit run followed by a literal `*` (the tail of the capture
`(\d+.\d+)\*`); maximal munch is exact because `*` is not a digit. -/
def digitsThenStar (cs : List Char) : Option (List Char × List Char) :=
  let ds := cs.takeWhile Char.isDigit
  if ds.isEmpty then none
  else
    match cs.dropWhile Char.isDigit with
    | '*' :: r => some (ds, r)
    | _ => none

/-- One attempt at `(\d+.\d+)\*` with the first `\d+` taking `k` chars. -/
def numStarTry (cs : List Char) (k : Nat) : Option (List Char × List Char) :=
  match cs.drop k with
  | c :: r1 =>
    if c = '\n' then none
    else
      match digitsThenStar r1 with
      | some (d2, rest) => some (cs.take k ++ c :: d2, rest)
      | none => none
  | [] => none

/-- Backtracking over the length of the first `\d+`, longest first. -/
def numStarGo (cs : List Char) : Nat → Option (List Char × List Char)
  | 0 => none
  | Nat.succ k =>
    match numStarTry cs (Nat.succ k) with
    | some res => some res
    | none => numStarGo cs k

/-- The capture `(\d+.\d+)` followed by `\*`: (group, rest after `*`). -/
def numGroupStar (cs : List Char) : Option (List Char × List Char) :=
  numStarGo cs (cs.takeWhile Char.isDigit).length

/-- One attempt at a trailing `(\d+.\d+)` with the first `\d+` = `k` chars. -/
def numEndTry (cs : List Char) (k : Nat) : Option (List Char) :=
  match cs.drop k with
  | c :: r1 =>
    if c = '\n' then none
    else
      let d2 := r1.takeWhile Char.isDigit
      if d2.isEmpty then none else some (cs.take k ++ c :: d2)
  | [] => none

def numEndGo (cs : List Char) : Nat → Option (List Char)
  | 0 => none
  | Nat.succ k =>
    match numEndTry cs (Nat.succ k) with
    | some res => some res
    | none => numEndGo cs k

/-- The final capture `(\d+.\d+)`, nothing required after it. -/
def numGroupEnd (cs : List Char) : Option (List Char) :=
  numEndGo cs (cs.takeWhile Char.isDigit).length

/-- `\s+`: at least one whitespace char, maximal munch (exact here since
no following token of the pattern matches whitespace). -/
def dropWS1 (cs : List Char) : Option (List Char) :=
  if (cs.takeWhile isPySpace).isEmpty then none
  else some (cs.dropWhile isPySpace)

/-- Consume a literal string. -/
def stripLit : List Char → List Char → Option (List Char)
  | [], cs => some cs
  | p :: ps, c :: cs => if c = p then stripLit ps cs else none
  | _ :: _, [] => none

/-- `re.match` of the antenna pattern against a line: the two numeric
captures (group 2 and group 3), or `none` when the line does not match. -/
def antennaMatch (cs : List Char) : Option (List Char × List Char) :=
  (dropWS1 cs).bind (fun r1 =>
  (match stripLit (("PAR:").data) r1 with
   | some r => some r
   | none => stripLit (("CAR:").data) r1).bind (fun r2 =>
  (dropWS1 r2).bind (fun r3 =>
  (numGroupStar r3).bind (fun g2r =>
  (dropWS1 g2r.2).bind (fun r5 =>
  (stripLit (("Ratio:").data) r5).bind (fun r6 =>
  (dropWS1 r6).bind (fun r7 =>
  (numGroupEnd r7).map (fun g3 => (g2r.1, g3)))))))))

/-- Result of one antenna-report line: not matched, a `float()` error, or
a printed classification line. -/
inductive AntRes
  | skip
  | crash
  | hit (out : String)
deriving DecidableEq

/-- Per-line behaviour of the loop body of `antenna_report`. -/
def antennaLineRes (line : String) : AntRes :=
  match antennaMatch line.data with
  | none => AntRes.skip
  | some (g2, g3) =>
    match parseDecChars g2, parseDecChars g3 with
    | some v, some r =>
      AntRes.hit (pyStrip line ++
        (if decGtTwice v r then (" : worth fixing") else (" : can ignore")))
    | _, _ => AntRes.crash

def antennaLink : String :=
  "For more info on antenna reports see https://www.zerotoasiccourse.com/terminology/antenna-report/"

def antennaGo : List String → Nat → List String → Option (List String × Nat)
  | [], n, acc => some (acc, n)
  | l :: ls, n, acc =>
    match antennaLineRes l with
    | AntRes.skip => antennaGo ls n acc
    | AntRes.crash => none
    | AntRes.hit s => antennaGo ls (n + 1) (acc ++ [s])

/-- `antenna_report` from `summary.py`: printed lines (`none` = uncaught
`ValueError` from `float`). -/
def antenna_report (lines : List String) : Option (List String) :=
  match antennaGo lines 0 [] with
  | none => none
  | some (out, n) => some (if 0 < n then out ++ [antennaLink] else out)

/-! ## `check_path` and the DRC / antenna branches of `__main__` -/

/-- `check_path` from `summary.py` applied to the glob result for
`pattern`: (optional warning printed, exit-or-path). -/
def check_path (pattern : String) (paths : List String) :
    Option String × Except String String :=
  match paths with
  | [] => (none, Except.error (("ERROR: file not found: ") ++ pattern))
  | [p] => (none, Except.ok p)
  | p :: _ :: _ =>
    (some (("Warning: glob pattern found too many files, using first one: ") ++ p),
     Except.ok p)

/-- `drc_report` from `summary.py`: prints every line stripped. -/
def drc_report (lines : List String) : List String :=
  lines.map pyStrip

/-- The `--drc` branch of `__main__`: the report path is probed with
`os.path.exists`, not `check_path`. -/
def drcBranch (filePresent : Bool) (lines : List String) : List String :=
  if filePresent then drc_report lines else [("No DRC file, DRC clean?")]

/-- The `--antenna` branch of `__main__`: the glob result is passed through
`check_path` first; `filePresent` models the subsequent `os.path.exists`
test (always true for a path returned by `glob`). -/
def antennaBranch (pattern : String) (globMatches : List String)
    (filePresent : Bool) (lines : List String) :
    Except String (Option (List String)) :=
  match (check_path pattern globMatches).2 with
  | Except.error e => Except.error e
  | Except.ok _ =>
    Except.ok (if filePresent then antenna_report lines
               else some [("No antenna file, did the run finish?")])

/-! ## C2 and C3 theorems -/

theorem decGtTwice_iff (v r : Dec) :
    decGtTwice v r = true ↔ Dec.toRat r * 2 < Dec.toRat v := by
  unfold decGtTwice Dec.toRat
  rw [decide_eq_true_eq]
  rw [div_mul_eq_mul_div, div_lt_div_iff₀ (by positivity) (by positivity)]
  constructor
  · intro h
    exact_mod_cast h
  · intro h
    exact_mod_cast h

theorem str_append_cancel {s a b : String} (h : s ++ a = s ++ b) : a = b := by
  have hd : (s ++ a).data = (s ++ b).data := by rw [h]
  rw [String.data_append, String.data_append] at hd
  exact String.ext (List.append_cancel_left hd)

theorem antenna_report_single {line : String} {s : String}
    (hs : antennaLineRes line = AntRes.hit s) :
    antenna_report [line] = some [s, antennaLink] := by
  unfold antenna_report antennaGo
  rw [hs]
  simp [antennaGo]

/-- C2: for every antenna-report line matching the fixed pattern with
numeric captures `v` (measured) and `r` (threshold), the parser prints the
line annotated "worth fixing" exactly when `v > 2 * r`, and "can ignore"
otherwise. -/
theorem C2_antenna_rule (line : String) (g2 g3 : List Char) (v r : Dec)
    (hm : antennaMatch line.data = some (g2, g3))
    (hv : parseDecChars g2 = some v) (hr : parseDecChars g3 = some r) :
    (antenna_report [line] = some [pyStrip line ++ (" : worth fixing"), antennaLink]
      ↔ Dec.toRat r * 2 < Dec.toRat v) ∧
    (antenna_report [line] = some [pyStrip line ++ (" : can ignore"), antennaLink]
      ↔ ¬ (Dec.toRat r * 2 < Dec.toRat v)) := by
  have hres : antennaLineRes line = AntRes.hit (pyStrip line ++
      (if decGtTwice v r then (" : worth fixing") else (" : can ignore"))) := by
    simp only [antennaLineRes, hm, hv, hr]
  by_cases hgt : decGtTwice v r = true
  · rw [if_pos hgt] at hres
    have hout := antenna_report_single hres
    have hq := (decGtTwice_iff v r).mp hgt
    refine ⟨⟨fun _ => hq, fun _ => hout⟩, ⟨fun heq => ?_, fun hn => absurd hq hn⟩⟩
    rw [hout, Option.some.injEq] at heq
    have hh := List.head_eq_of_cons_eq heq
    have := str_append_cancel hh
    exact absurd this (by decide)
  · rw [if_neg hgt] at hres
    have hout := antenna_report_single hres
    have hq : ¬ (Dec.toRat r * 2 < Dec.toRat v) := fun hc =>
      hgt ((decGtTwice_iff v r).mpr hc)
    refine ⟨⟨fun heq => ?_, fun hc => absurd hc hq⟩, ⟨fun _ => hq, fun _ => hout⟩⟩
    rw [hout, Option.some.injEq] at heq
    have hh := List.head_eq_of_cons_eq heq
    have := str_append_cancel hh
    exact absurd this (by decide)

/-- C2 witness: the two sample lines of the specification; both have a
measured value exceeding twice the threshold (`5 > 2·2` and `5 > 2·1`),
so both are classified "worth fixing". -/
theorem C2_witness :
    antenna_report [("   PAR:    5.00*  Ratio:   2.00")] =
      some [pyStrip ("   PAR:    5.00*  Ratio:   2.00") ++ (" : worth fixing"),
        antennaLink] ∧
    antenna_report [("   PAR:    5.00*  Ratio:   1.00")] =
      some [pyStrip ("   PAR:    5.00*  Ratio:   1.00") ++ (" : worth fixing"),
        antennaLink] :=
  ⟨(C2_antenna_rule _ (['5', '.', '0', '0']) (['2', '.', '0', '0'])
      (Dec.mk 500 2) (Dec.mk 200 2) (by decide) (by decide) (by decide)).1.mpr
      ((decGtTwice_iff (Dec.mk 500 2) (Dec.mk 200 2)).mp (by decide)),
   (C2_antenna_rule _ (['5', '.', '0', '0']) (['1', '.', '0', '0'])
      (Dec.mk 500 2) (Dec.mk 100 2) (by decide) (by decide) (by decide)).1.mpr
      ((decGtTwice_iff (Dec.mk 500 2) (Dec.mk 100 2)).mp (by decide))⟩

/-- C3: with the report file absent, the `--drc` branch prints an
informational message and continues, but the `--antenna` branch terminates
with an error: its glob result goes through `check_path`, which exits when
nothing matches, so the graceful "No antenna file" branch is unreachable. -/
theorem C3_missing_reports :
    drcBranch false [] = [("No DRC file, DRC clean?")] ∧
    (∀ (lines : List String) (b : Bool),
      antennaBranch ("reports/finishing/*antenna.rpt") [] b lines =
        Except.error (("ERROR: file not found: ") ++
          ("reports/finishing/*antenna.rpt"))) := by
  exact ⟨rfl, fun lines b => rfl⟩

/-! ## `summary_report` (`summary.py`) and the CSV section of `report.py`

Rows are association lists in header order (`csv.DictReader` yields one
dict per data row; the headers of the summary CSVs are distinct). -/

/-- Possible outcomes: normal output, an uncaught `ValueError` from
`float`, or the `UnboundLocalError` raised by the final area print when no
key contained `AREA`. -/
inductive SummaryResult
  | ok (lines : List String)
  | valueError
  | unboundLocal (lines : List String)
deriving DecidableEq

/-- The `"%30s : %20s"` line printed for violation/error fields. -/
def fmtPair (k v : String) : String :=
  padLeftStr 30 k ++ (" : ") ++ padLeftStr 20 v

/-- The `"area %d um^2" % (1e6 * area)` line. -/
def areaLine (a : Dec) : String :=
  ("area ") ++ toString (Dec.truncInt (Dec.mk (1000000 * a.num) a.scale)) ++ (" um^2")

/-- Loop body of `summary_report` for one `key, value` item.  State:
(area variable if assigned, `status`, printed lines). -/
def procItem (st : Option Dec × Option String × List String)
    (kv : String × String) :
    Option (Option Dec × Option String × List String) :=
  let out := if pySub ("violation") kv.1 || pySub ("error") kv.1
             then st.2.2 ++ [fmtPair kv.1 kv.2] else st.2.2
  let status := if pySub ("flow_status") kv.1 then some kv.2 else st.2.1
  if pySub ("AREA") kv.1 then
    match parsePyFloat kv.2 with
    | none => none
    | some q => some (some q, status, out)
  else some (st.1, status, out)

def procItems :
    (Option Dec × Option String × List String) → List (String × String) →
    Option (Option Dec × Option String × List String)
  | st, [] => some st
  | st, kv :: rest =>
    match procItem st kv with
    | none => none
    | some st2 => procItems st2 rest

def procRows :
    (Option Dec × Option String × List String) →
    List (List (String × String)) →
    Option (Option Dec × Option String × List String)
  | st, [] => some st
  | st, row :: rest =>
    match procItems st row with
    | none => none
    | some st2 => procRows st2 rest

/-- `summary_report` from `summary.py` applied to the CSV rows. -/
def summary_report (rows : List (List (String × String))) : SummaryResult :=
  match procRows (none, none, []) rows with
  | none => SummaryResult.valueError
  | some (areaOpt, statusOpt, out) =>
    match areaOpt with
    | none => SummaryResult.unboundLocal out
    | some a =>
      SummaryResult.ok
        (match statusOpt with
         | some st => (out ++ [areaLine a]) ++ [("flow status: ") ++ st]
         | none => out ++ [areaLine a])

/-- Loop body of the CSV section of `report.py` (same as
`summary_report` but with no `flow_status` handling). -/
def reportItem (st : Option Dec × List String) (kv : String × String) :
    Option (Option Dec × List String) :=
  let out := if pySub ("violation") kv.1 || pySub ("error") kv.1
             then st.2 ++ [fmtPair kv.1 kv.2] else st.2
  if pySub ("AREA") kv.1 then
    match parsePyFloat kv.2 with
    | none => none
    | some q => some (some q, out)
  else some (st.1, out)

def reportItems :
    (Option Dec × List String) → List (String × String) →
    Option (Option Dec × List String)
  | st, [] => some st
  | st, kv :: rest =>
    match reportItem st kv with
    | none => none
    | some st2 => reportItems st2 rest

def reportRows :
    (Option Dec × List String) → List (List (String × String)) →
    Option (Option Dec × List String)
  | st, [] => some st
  | st, row :: rest =>
    match reportItems st row with
    | none => none
    | some st2 => reportRows st2 rest

/-- The summary-CSV section of `report.py`'s `report`: the violation lines,
a blank line, and the area print. -/
def reportCsvSection (rows : List (List (String × String))) : SummaryResult :=
  match reportRows (none, []) rows with
  | none => SummaryResult.valueError
  | some (areaOpt, out) =>
    match areaOpt with
    | none => SummaryResult.unboundLocal out
    | some a => SummaryResult.ok (out ++ [(""), areaLine a])

/-- C4 counterexample: on the claimed input the field is named `area`
(lower case), so the case-sensitive `"AREA" in key` test never fires and
the function crashes with `UnboundLocalError` after printing only the
violation line — it does not emit any area or status line, and `100.0`
could not be printed anyway since `%d` formats without a decimal point. -/
theorem C4_counterexample :
    summary_report [[(("area"), ("0.0001")), (("flow_status"), ("Flow_completed")),
      (("drc_violations"), ("3"))]] =
      SummaryResult.unboundLocal [fmtPair ("drc_violations") ("3")] := by
  decide

/-- C4 amended: with the area field's key containing `AREA` (upper case,
as in real summary CSVs), the printer prints the violation field, emits
the area times 1e6 through `%d` as `area 100 um^2`, and prints the flow
status line. -/
theorem C4_summary_output :
    summary_report [[(("AREA"), ("0.0001")), (("flow_status"), ("Flow_completed")),
      (("drc_violations"), ("3"))]] =
      SummaryResult.ok [fmtPair ("drc_violations") ("3"), ("area 100 um^2"),
        ("flow status: Flow_completed")] := by
  decide

theorem procItems_noArea :
    ∀ (items : List (String × String)) st,
      (∀ kv ∈ items, pySub ("AREA") kv.1 = false) →
      ∃ stat out, procItems st items = some (st.1, stat, out) := by
  intro items
  induction items with
  | nil => exact fun st _ => ⟨st.2.1, st.2.2, rfl⟩
  | cons kv rest ih =>
    intro st h
    have hkv := h kv (by simp)
    have hstep : procItem st kv = some (st.1,
        (if pySub ("flow_status") kv.1 then some kv.2 else st.2.1),
        (if pySub ("violation") kv.1 || pySub ("error") kv.1
         then st.2.2 ++ [fmtPair kv.1 kv.2] else st.2.2)) := by
      simp only [procItem, hkv]
      simp
    obtain ⟨stat, out, hrec⟩ := ih _ (fun x hx => h x (by simp [hx]))
    refine ⟨stat, out, ?_⟩
    simp only [procItems, hstep]
    exact hrec

theorem procRows_noArea :
    ∀ (rows : List (List (String × String))) st,
      (∀ row ∈ rows, ∀ kv ∈ row, pySub ("AREA") kv.1 = false) →
      ∃ stat out, procRows st rows = some (st.1, stat, out) := by
  intro rows
  induction rows with
  | nil => exact fun st _ => ⟨st.2.1, st.2.2, rfl⟩
  | cons row rest ih =>
    intro st h
    obtain ⟨stat1, out1, hrow⟩ := procItems_noArea row st (h row (by simp))
    obtain ⟨stat, out, hrec⟩ := ih _ (fun r hr kv hkv => h r (by simp [hr]) kv hkv)
    refine ⟨stat, out, ?_⟩
    simp only [procRows, hrow]
    exact hrec

theorem reportItems_noArea :
    ∀ (items : List (String × String)) st,
      (∀ kv ∈ items, pySub ("AREA") kv.1 = false) →
      ∃ out, reportItems st items = some (st.1, out) := by
  intro items
  induction items with
  | nil => exact fun st _ => ⟨st.2, rfl⟩
  | cons kv rest ih =>
    intro st h
    have hkv := h kv (by simp)
    have hstep : reportItem st kv = some (st.1,
        (if pySub ("violation") kv.1 || pySub ("error") kv.1
         then st.2 ++ [fmtPair kv.1 kv.2] else st.2)) := by
      simp only [reportItem, hkv]
      simp
    obtain ⟨out, hrec⟩ := ih _ (fun x hx => h x (by simp [hx]))
    refine ⟨out, ?_⟩
    simp only [reportItems, hstep]
    exact hrec

theorem reportRows_noArea :
    ∀ (rows : List (List (String × String))) st,
      (∀ row ∈ rows, ∀ kv ∈ row, pySub ("AREA") kv.1 = false) →
      ∃ out, reportRows st rows = some (st.1, out) := by
  intro rows
  induction rows with
  | nil => exact fun st _ => ⟨st.2, rfl⟩
  | cons row rest ih =>
    intro st h
    obtain ⟨out1, hrow⟩ := reportItems_noArea row st (h row (by simp))
    obtain ⟨out, hrec⟩ := ih _ (fun r hr kv hkv => h r (by simp [hr]) kv hkv)
    refine ⟨out, ?_⟩
    simp only [reportRows, hrow]
    exact hrec

/-- C10: when no key of any row contains the substring `AREA`, the local
`area` variable is never assigned, so both `summary_report` and the CSV
section of `report.py` end in the `UnboundLocalError` of the final area
print — normal termination requires an `AREA` field. -/
theorem C10_area_required (rows : List (List (String × String)))
    (h : ∀ row ∈ rows, ∀ kv ∈ row, pySub ("AREA") kv.1 = false) :
    (∃ out, summary_report rows = SummaryResult.unboundLocal out) ∧
    (∃ out, reportCsvSection rows = SummaryResult.unboundLocal out) := by
  constructor
  · obtain ⟨stat, out, hp⟩ := procRows_noArea rows (none, none, []) h
    exact ⟨out, by simp only [summary_report, hp]⟩
  · obtain ⟨out, hp⟩ := reportRows_noArea rows (none, []) h
    exact ⟨out, by simp only [reportCsvSection, hp]⟩

/-- C10 witness: a concrete summary row with no `AREA` key crashes. -/
theorem C10_witness :
    (∃ out, summary_report [[(("flow_status"), ("Flow_completed")),
      (("tritonRoute_violations"), ("0"))]] =
      SummaryResult.unboundLocal out) ∧
    (∃ out, reportCsvSection [[(("flow_status"), ("Flow_completed")),
      (("tritonRoute_violations"), ("0"))]] =
      SummaryResult.unboundLocal out) :=
  C10_area_required _ (by decide)

/-! ## Regression runs (`check_and_sort_regressions`) and run resolution -/

/-- `summary['flow_status']`: dict lookup (`none` = `KeyError`). -/
def pyDictGet (row : List (String × String)) (k : String) : Option String :=
  List.lookup k row

/-- The per-run sum of `int(v)` over keys containing `violations` or
`error`, with the code's `int(v) >= 0` filter skipping negative values;
`none` = `ValueError` from `int`. -/
def runViolationSum : List (String × String) → Option Int
  | [] => some 0
  | kv :: rest =>
    if pySub ("violations") kv.1 || pySub ("error") kv.1 then
      match parsePyInt kv.2 with
      | none => none
      | some n =>
        match runViolationSum rest with
        | none => none
        | some s => some (if 0 ≤ n then n + s else s)
    else runViolationSum rest

/-- The filter loop of `check_and_sort_regressions`: keep runs whose
summary file exists (`some` row) and whose `flow_status` equals
`Flow_completed`; `none` = `KeyError` on a summary lacking that field. -/
def regrFilter :
    List (String × Option (List (String × String))) →
    Option (List (String × List (String × String)))
  | [] => some []
  | (_, none) :: rest => regrFilter rest
  | (rp, some row) :: rest =>
    match pyDictGet row ("flow_status") with
    | none => none
    | some st =>
      if st = ("Flow_completed") then
        match regrFilter rest with
        | none => none
        | some l => some ((rp, row) :: l)
      else regrFilter rest

/-- The violation sums of the filtered runs, in order. -/
def sumsOf :
    List (String × List (String × String)) → Option (List (String × Int))
  | [] => some []
  | (rp, row) :: rest =>
    match runViolationSum row, sumsOf rest with
    | some n, some l => some ((rp, n) :: l)
    | _, _ => none

/-- Stable insertion into a list sorted by `key`. -/
def stableInsertBy {α : Type} (key : α → Int) (x : α) : List α → List α
  | [] => [x]
  | y :: ys =>
    if key x ≤ key y then x :: y :: ys else y :: stableInsertBy key x ys

/-- Stable insertion sort by `key`: the same permutation as Python's
stable `sorted(..., key=...)`. -/
def stableSortBy {α : Type} (key : α → Int) : List α → List α
  | [] => []
  | x :: xs => stableInsertBy key x (stableSortBy key xs)

/-- `check_and_sort_regressions` from `summary.py`: the run paths sorted
by ascending violation sum (`none` = uncaught exception). -/
def check_and_sort_regressions
    (runs : List (String × Option (List (String × String)))) :
    Option (List String) :=
  match regrFilter runs with
  | none => none
  | some flt =>
    match sumsOf flt with
    | none => none
    | some sums => some ((stableSortBy Prod.snd sums).map Prod.fst)

/-- The specification claim's reading of the violation sum: every
violation-like numeric field (key containing `violations` or `error`) is
added, negative values included.  Kept for comparison with
`runViolationSum`, which is what the code computes. -/
def claimViolationSum : List (String × String) → Option Int
  | [] => some 0
  | kv :: rest =>
    if pySub ("violations") kv.1 || pySub ("error") kv.1 then
      match parsePyInt kv.2, claimViolationSum rest with
      | some n, some s => some (n + s)
      | _, _ => none
    else claimViolationSum rest

/-- A candidate run directory as seen by `__main__`: its path, its
`os.path.getctime`, and the first row of its summary CSV when the file
exists (consumed in regression mode). -/
structure Cand where
  path : String
  ctime : Int
  summary : Option (List (String × String))
deriving DecidableEq

/-- The `--run` argument: absent (use latest), bare (interactive menu,
with the reply typed at the prompt), or an explicit index. -/
inductive RunArg
  | latest
  | menu (raw : String)
  | idx (i : Int)
deriving DecidableEq

/-- Python list indexing: negative indices count from the end, out of
range is an `IndexError`. -/
def pyIndex {α : Type} (l : List α) (i : Int) : Option α :=
  let j := if i < 0 then (l.length : Int) + i else i
  if 0 ≤ j then l.get? j.toNat else none

/-- `max(list_of_files, key=os.path.getctime)`: the first maximum. -/
def maxByCtime : Cand → List Cand → Cand
  | best, [] => best
  | best, c :: rest => maxByCtime (if best.ctime < c.ctime then c else best) rest

/-- `list_of_files.sort(key=openlane_date_sort)`; `none` when the key
function raises on some element. -/
def sortRunsC (cands : List Cand) : Option (List Cand) :=
  match cands.mapM (fun c => (openlane_date_sort c.path).map (fun k => (c, k))) with
  | none => none
  | some pairs => some ((stableSortBy Prod.snd pairs).map Prod.fst)

/-- Run selection on the sorted list (non-regression path). -/
def selectRun (arg : RunArg) (sorted : List Cand) : Option Cand :=
  match arg with
  | RunArg.latest =>
    match sorted with
    | [] => none
    | c :: rest => some (maxByCtime c rest)
  | RunArg.menu raw =>
    if raw = ("") then sorted.get? (sorted.length - 1)
    else
      match parsePyInt raw with
      | none => none
      | some i => pyIndex sorted i
  | RunArg.idx i => pyIndex sorted i

/-- Run-directory resolution of `__main__`, from the glob result to
`run_path`.  `none` models an uncaught exception, `Except.error` an
`exit(msg)`. -/
def selectRunPath (regression : Bool) (arg : RunArg) (cands : List Cand) :
    Option (Except String String) :=
  if cands.length = 0 then
    some (Except.error ("ERROR: Couldn't find that design"))
  else if regression then
    match check_and_sort_regressions (cands.map (fun c => (c.path, c.summary))) with
    | none => none
    | some [] => some (Except.error ("ERROR: No successful regression runs found"))
    | some (rp :: _) => some (Except.ok rp)
  else
    match sortRunsC cands with
    | none => none
    | some sorted =>
      match selectRun arg sorted with
      | none => none
      | some c => some (Except.ok c.path)

/-- Everything `__main__` does after resolution (report parsing, viewer
dispatch, copying), abstracted as `process`: an exit during resolution
reaches the end of the program without any of it running. -/
def programOutcome (regression : Bool) (arg : RunArg) (cands : List Cand)
    (process : String → Option (Except String (List String))) :
    Option (Except String (List String)) :=
  match selectRunPath regression arg cands with
  | none => none
  | some (Except.error e) => some (Except.error e)
  | some (Except.ok p) => process p

/-! ## C5, C6, C7 theorems -/

theorem stableInsertBy_mem {α : Type} (key : α → Int) (x : α) (l : List α)
    (z : α) : z ∈ stableInsertBy key x l ↔ z = x ∨ z ∈ l := by
  induction l with
  | nil => simp [stableInsertBy]
  | cons y ys ih =>
    simp only [stableInsertBy]
    split_ifs with hk
    · simp [List.mem_cons]
    · simp only [List.mem_cons, ih]
      tauto

theorem stableSortBy_mem {α : Type} (key : α → Int) (l : List α) (z : α) :
    z ∈ stableSortBy key l ↔ z ∈ l := by
  induction l with
  | nil => simp [stableSortBy]
  | cons x xs ih =>
    simp only [stableSortBy, stableInsertBy_mem, ih, List.mem_cons]

theorem stableInsertBy_sorted {α : Type} (key : α → Int) (x : α)
    (l : List α) (hl : List.Pairwise (fun a b => key a ≤ key b) l) :
    List.Pairwise (fun a b => key a ≤ key b) (stableInsertBy key x l) := by
  induction l with
  | nil => simp [stableInsertBy]
  | cons y ys ih =>
    cases hl with
    | cons hy hys =>
      simp only [stableInsertBy]
      split_ifs with hk
      · refine List.Pairwise.cons ?_ (List.Pairwise.cons hy hys)
        intro b hb
        rcases List.mem_cons.mp hb with hb | hb
        · rw [hb]; exact hk
        · exact le_trans hk (hy b hb)
      · refine List.Pairwise.cons ?_ (ih hys)
        intro b hb
        rcases (stableInsertBy_mem key x ys b).mp hb with hb | hb
        · rw [hb]; omega
        · exact hy b hb

theorem stableSortBy_sorted {α : Type} (key : α → Int) (l : List α) :
    List.Pairwise (fun a b => key a ≤ key b) (stableSortBy key l) := by
  induction l with
  | nil => simp [stableSortBy]
  | cons x xs ih => exact stableInsertBy_sorted key x _ ih

/-- Membership characterisation of the regression filter. -/
theorem regrFilter_mem :
    ∀ (runs : List (String × Option (List (String × String))))
      (flt : List (String × List (String × String))),
      regrFilter runs = some flt →
      ∀ (rp : String) (row : List (String × String)),
        ((rp, row) ∈ flt ↔ (rp, some row) ∈ runs ∧
          pyDictGet row ("flow_status") = some ("Flow_completed")) := by
  intro runs
  induction runs with
  | nil =>
    intro flt hf rp row
    injection hf with h
    rw [← h]
    simp
  | cons c rest ih =>
    obtain ⟨rp0, s0⟩ := c
    cases s0 with
    | none =>
      intro flt hf rp row
      have hf2 : regrFilter rest = some flt := hf
      rw [ih flt hf2 rp row]
      simp
    | some row0 =>
      intro flt hf rp row
      simp only [regrFilter] at hf
      split at hf
      · exact Option.noConfusion hf
      · rename_i st hg
        split_ifs at hf with hst
        · cases hrec : regrFilter rest with
          | none => rw [hrec] at hf; exact Option.noConfusion hf
          | some l =>
            rw [hrec] at hf
            injection hf with h2
            rw [← h2]
            have hih := ih l hrec rp row
            simp only [List.mem_cons]
            constructor
            · intro hm
              rcases hm with hm | hm
              · rw [Prod.mk.injEq] at hm
                refine ⟨Or.inl ?_, ?_⟩
                · rw [hm.1, hm.2]
                · rw [hm.2, hg, hst]
              · have h3 := hih.mp hm
                exact ⟨Or.inr h3.1, h3.2⟩
            · rintro ⟨hm | hm, hcomp⟩
              · rw [Prod.mk.injEq] at hm
                left
                rw [Prod.mk.injEq]
                refine ⟨hm.1, ?_⟩
                injection hm.2
              · exact Or.inr (hih.mpr ⟨hm, hcomp⟩)
        · have hih := ih flt hf rp row
          rw [hih]
          simp only [List.mem_cons]
          constructor
          · rintro ⟨hm, hcomp⟩
            exact ⟨Or.inr hm, hcomp⟩
          · rintro ⟨hm | hm, hcomp⟩
            · rw [Prod.mk.injEq] at hm
              have hrow : row = row0 := by injection hm.2
              rw [hrow, hg] at hcomp
              injection hcomp with h3
              exact absurd h3 hst
            · exact ⟨hm, hcomp⟩

/-- C5 (amended): in regression mode the filtered runs are exactly the
candidates whose summary exists with `flow_status = Flow_completed`, and
the selected head of the sorted list has the minimal violation sum — the
sum taken with the code's `int(v) >= 0` filter, negative fields
excluded. -/
theorem C5_regression_min
    (runs : List (String × Option (List (String × String))))
    (flt : List (String × List (String × String)))
    (sums : List (String × Int)) (sel : String) (rest : List String)
    (hf : regrFilter runs = some flt) (hs : sumsOf flt = some sums)
    (hsel : check_and_sort_regressions runs = some (sel :: rest)) :
    (∀ (rp : String) (row : List (String × String)),
      ((rp, row) ∈ flt ↔ (rp, some row) ∈ runs ∧
        pyDictGet row ("flow_status") = some ("Flow_completed"))) ∧
    (∃ s, (sel, s) ∈ sums ∧ ∀ p ∈ sums, s ≤ p.2) := by
  refine ⟨regrFilter_mem runs flt hf, ?_⟩
  simp only [check_and_sort_regressions, hf, hs] at hsel
  injection hsel with h1
  cases hq : stableSortBy Prod.snd sums with
  | nil => rw [hq] at h1; exact absurd h1 (by simp)
  | cons q qs =>
    rw [hq] at h1
    simp only [List.map_cons] at h1
    have hq1 : q.1 = sel := (List.cons.injEq _ _ _ _).mp h1 |>.1
    refine ⟨q.2, ?_, ?_⟩
    · have : q ∈ stableSortBy Prod.snd sums := by rw [hq]; simp
      rw [stableSortBy_mem] at this
      rw [← hq1]
      exact this
    · intro p hp
      have hp2 : p ∈ stableSortBy Prod.snd sums := (stableSortBy_mem _ _ _).mpr hp
      rw [hq] at hp2
      rcases List.mem_cons.mp hp2 with hp2 | hp2
      · rw [hp2]
      · have hsorted := stableSortBy_sorted Prod.snd sums
        rw [hq] at hsorted
        cases hsorted with
        | cons hhead _ => exact hhead p hp2

/-- C5 counterexample: the claim's sum (all violation-like fields,
negatives included) would select run `A` (sum `-2`), but the code skips
negative values, sums `A` to `3`, and selects `B` (sum `0`): the selected
run does not minimise the claimed sum. -/
theorem C5_counterexample :
    check_and_sort_regressions
      [(("A"), some [(("flow_status"), ("Flow_completed")),
          (("x_violations"), ("-5")), (("y_violations"), ("3"))]),
       (("B"), some [(("flow_status"), ("Flow_completed")),
          (("x_violations"), ("0")), (("y_violations"), ("0"))])] =
      some [("B"), ("A")] ∧
    claimViolationSum [(("flow_status"), ("Flow_completed")),
      (("x_violations"), ("-5")), (("y_violations"), ("3"))] = some (-2) ∧
    claimViolationSum [(("flow_status"), ("Flow_completed")),
      (("x_violations"), ("0")), (("y_violations"), ("0"))] = some 0 ∧
    ((-2 : Int) < 0) := by
  decide

/-- C5 witness: the amended theorem at a concrete regression sweep. -/
theorem C5_witness :
    (∀ (rp : String) (row : List (String × String)),
      ((rp, row) ∈
          [(("cfgA"), [(("flow_status"), ("Flow_completed")),
            (("tritonRoute_violations"), ("2"))])] ↔
        (rp, some row) ∈
          [(("cfgA"), some [(("flow_status"), ("Flow_completed")),
            (("tritonRoute_violations"), ("2"))]), (("cfgB"), none)] ∧
        pyDictGet row ("flow_status") = some ("Flow_completed"))) ∧
    (∃ s, (("cfgA"), s) ∈ [((("cfgA") : String), (2 : Int))] ∧
      ∀ p ∈ [((("cfgA") : String), (2 : Int))], s ≤ p.2) :=
  C5_regression_min
    [(("cfgA"), some [(("flow_status"), ("Flow_completed")),
      (("tritonRoute_violations"), ("2"))]), (("cfgB"), none)]
    [(("cfgA"), [(("flow_status"), ("Flow_completed")),
      (("tritonRoute_violations"), ("2"))])]
    [(("cfgA"), 2)] ("cfgA") [] (by decide) (by decide) (by decide)

/-- One run failing the regression filter without raising: either its
summary file is missing, or `flow_status` is present and differs from
`Flow_completed`. -/
def filterFailC (s : Option (List (String × String))) : Bool :=
  match s with
  | none => true
  | some row =>
    match pyDictGet row ("flow_status") with
    | none => false
    | some st => decide (st ≠ ("Flow_completed"))

theorem regrFilter_all_fail :
    ∀ runs : List (String × Option (List (String × String))),
      (∀ c ∈ runs, filterFailC c.2 = true) → regrFilter runs = some [] := by
  intro runs
  induction runs with
  | nil => intro _; rfl
  | cons c rest ih =>
    intro h
    obtain ⟨rp, s⟩ := c
    cases s with
    | none => exact ih (fun x hx => h x (by simp [hx]))
    | some row =>
      have hc := h (rp, some row) (by simp)
      simp only [filterFailC] at hc
      cases hg : pyDictGet row ("flow_status") with
      | none => rw [hg] at hc; exact absurd hc (by simp)
      | some st =>
        rw [hg] at hc
        have hne := of_decide_eq_true hc
        simp only [regrFilter, hg]
        rw [if_neg hne]
        exact ih (fun x hx => h x (by simp [hx]))

/-- C6: a non-empty regression sweep in which every run lacks a
completed-flow summary fails with the "no successful regression runs"
error, distinct from the "couldn't find that design" error raised when
zero candidate directories exist. -/
theorem C6_regression_errors (cands : List Cand) (arg : RunArg)
    (hne : cands ≠ [])
    (hall : ∀ c ∈ cands, filterFailC c.summary = true) :
    selectRunPath true arg cands =
      some (Except.error ("ERROR: No successful regression runs found")) ∧
    selectRunPath true arg [] =
      some (Except.error ("ERROR: Couldn't find that design")) ∧
    (("ERROR: No successful regression runs found") : String) ≠
      ("ERROR: Couldn't find that design") := by
  refine ⟨?_, rfl, by decide⟩
  have hf : regrFilter (cands.map (fun c => (c.path, c.summary))) = some [] := by
    apply regrFilter_all_fail
    intro x hx
    obtain ⟨c, hc, hcx⟩ := List.mem_map.mp hx
    rw [← hcx]
    exact hall c hc
  have hlen : ¬ (cands.length = 0) := fun h0 => hne (List.length_eq_zero.mp h0)
  simp [selectRunPath, hlen, check_and_sort_regressions, hf, sumsOf, stableSortBy]

/-- C6 witness: one candidate whose flow did not complete. -/
theorem C6_witness :
    selectRunPath true RunArg.latest
      [Cand.mk ("config_regression_a") 0
        (some [(("flow_status"), ("flow failed"))])] =
      some (Except.error ("ERROR: No successful regression runs found")) ∧
    selectRunPath true RunArg.latest [] =
      some (Except.error ("ERROR: Couldn't find that design")) ∧
    (("ERROR: No successful regression runs found") : String) ≠
      ("ERROR: Couldn't find that design") :=
  C6_regression_errors _ RunArg.latest (by decide) (by decide)

/-- C7: with zero matching run directories the program exits with the
descriptive design-not-found error, and nothing downstream (run selection,
report parsing, viewer dispatch — all abstracted by `process`) runs. -/
theorem C7_design_not_found :
    ∀ (regression : Bool) (arg : RunArg)
      (process : String → Option (Except String (List String))),
      programOutcome regression arg [] process =
        some (Except.error ("ERROR: Couldn't find that design")) := by
  intro regression arg process
  rfl

/-! ## C8: `check_path` -/

/-- C8 (amended): `check_path` exits with an error only on zero glob
matches; with more than one match it prints an ambiguity warning and
returns the first match rather than erroring; with exactly one match that
path is returned. -/
theorem C8_check_path (pattern : String) (paths : List String) :
    (paths = [] → check_path pattern paths =
      (none, Except.error (("ERROR: file not found: ") ++ pattern))) ∧
    (∀ p, paths = [p] → check_path pattern paths = (none, Except.ok p)) ∧
    (∀ p q tail2, paths = p :: q :: tail2 →
      check_path pattern paths =
        (some (("Warning: glob pattern found too many files, using first one: ") ++ p),
         Except.ok p)) := by
  refine ⟨?_, ?_, ?_⟩
  · intro h
    rw [h]
    rfl
  · intro p h
    rw [h]
    rfl
  · intro p q tail2 h
    rw [h]
    rfl

/-- C8 counterexample: two glob matches do not cause an error — the first
path is returned with only a warning printed. -/
theorem C8_counterexample :
    check_path ("pat") [("a"), ("b")] =
      (some (("Warning: glob pattern found too many files, using first one: a")),
       Except.ok ("a")) := by
  rfl

/-- C8 witness: the amended theorem at a two-match glob. -/
theorem C8_witness :
    check_path ("x") [("a"), ("b")] =
      (some (("Warning: glob pattern found too many files, using first one: ") ++ ("a")),
       Except.ok ("a")) :=
  (C8_check_path ("x") [("a"), ("b")]).2.2 ("a") ("b") [] rfl

/-! ## C9: the DRC grouping of `report.py` -/

def hasParen (l : String) : Bool :=
  l.data.contains '('

/-- The DRC loop of `report.py`'s `report`: `last` is `last_drc`, `cnt`
is `drc_count`; on a parenthesis line the previous group is printed as
`"* %s (%d)" % (last_drc, drc_count / 4)`. -/
def drcGo : List String → Option String → Nat → List String
  | [], _, _ => []
  | l :: ls, last, cnt =>
    if hasParen l then
      (match last with
       | some prev => [("* ") ++ prev ++ (" (") ++ toString ((cnt + 1) / 4) ++ (")")]
       | none => []) ++ drcGo ls (some (pyStrip l)) 0
    else drcGo ls last (cnt + 1)

/-- The DRC section of `report.py`'s `report`. -/
def drcReportSection (lines : List String) : List String :=
  drcGo lines none 0

/-- The claim's reading of the same loop: each group printed with its full
line count, not the count divided by four. -/
def claimDrcGo : List String → Option String → Nat → List String
  | [], _, _ => []
  | l :: ls, last, cnt =>
    if hasParen l then
      (match last with
       | some prev => [("* ") ++ prev ++ (" (") ++ toString (cnt + 1) ++ (")")]
       | none => []) ++ claimDrcGo ls (some (pyStrip l)) 0
    else claimDrcGo ls last (cnt + 1)

def claimDrcSection (lines : List String) : List String :=
  claimDrcGo lines none 0

theorem drcGo_skip :
    ∀ (pre rest : List String) (last : Option String) (cnt : Nat),
      (∀ l ∈ pre, hasParen l = false) →
      drcGo (pre ++ rest) last cnt = drcGo rest last (cnt + pre.length) := by
  intro pre
  induction pre with
  | nil =>
    intro rest last cnt _
    simp
  | cons p ps ih =>
    intro rest last cnt h
    have hp := h p (by simp)
    simp only [List.cons_append, drcGo, hp]
    simp only [Bool.false_eq_true, if_false, List.append_eq]
    rw [ih rest last (cnt + 1) (fun x hx => h x (by simp [hx]))]
    congr 1
    simp only [List.length_cons]
    omega

/-- C9 (amended): the DRC parser of `report.py` groups the lines between
two consecutive parenthesis lines (the closing one included), prints one
summary line per group headed by the stripped opening line — annotated
with the group's line count divided by four (integer truncation), not the
line count itself — and never reports material after the last parenthesis
line. -/
theorem C9_drc_groups (pre mid : List String) (hline kline : String)
    (hpre : ∀ l ∈ pre, hasParen l = false)
    (hmid : ∀ l ∈ mid, hasParen l = false)
    (hh : hasParen hline = true) (hk : hasParen kline = true) :
    drcReportSection (pre ++ hline :: (mid ++ [kline])) =
      [("* ") ++ pyStrip hline ++ (" (") ++
        toString ((mid.length + 1) / 4) ++ (")")] := by
  unfold drcReportSection
  rw [drcGo_skip pre _ none 0 hpre]
  simp only [drcGo, hh, if_true]
  rw [drcGo_skip mid [kline] _ 0 hmid]
  simp only [drcGo, hk, if_true]
  simp

/-- C9 counterexample: a four-line group (three body lines plus the
closing parenthesis line) is printed with count `1`, not its line count
`4`. -/
theorem C9_counterexample :
    drcReportSection [("A ("), ("b"), ("c"), ("d"), ("E (")] = [("* A ( (1)")] ∧
    claimDrcSection [("A ("), ("b"), ("c"), ("d"), ("E (")] = [("* A ( (4)")] ∧
    (("* A ( (1)") : String) ≠ ("* A ( (4)") := by
  decide

/-- C9 witness: the amended theorem at a concrete report. -/
theorem C9_witness :
    drcReportSection ([("x")] ++ ("metal2 (M2.2)") ::
        ([("loc1"), ("loc2"), ("loc3")] ++ [("ok (M3)")])) =
      [("* ") ++ pyStrip ("metal2 (M2.2)") ++ (" (") ++
        toString ((([("loc1"), ("loc2"), ("loc3")] : List String).length + 1) / 4) ++
        (")")] :=
  C9_drc_groups [("x")] [("loc1"), ("loc2"), ("loc3")] ("metal2 (M2.2)")
    ("ok (M3)") (by decide) (by decide) (by decide) (by decide)

end OLSum
